import Mathlib

/-!
Verification development for the display-list interpreter of the mm
TI-Nspire port.

The core under study is `nsp_process_display_list` from
`src/unnamed/part_003` (the explicit-stack Walker, the canonical variant
per the design notes), together with the segment table
(`nsp_set_segment` / `nsp_segmented_to_virtual`), the bounded display-list
stack (`dl_push` / `dl_pop`), and the GBI command constructors from
`src/unnamed/part_000` (`gbi_nsp.h`).

Modelling conventions:
- a `Gfx` command is a pair of 32-bit words, modelled as two `Nat`s;
- `Gfx*` pointers are modelled as `Nat` cell indices into a total memory
  `Mem : Nat → Gfx`; the C pointer increment `dl++`/`dl + 1` (one `Gfx`
  cell) is `+ 1`, and the null pointer is `0` (the walker checks
  `if (!dl)` and `if (child)` explicitly);
- the 16-entry C array `nsp_segments` is a total function `Nat → Nat`;
  every access in the source masks the index with `& 0xF`, so only the
  cells `0..15` are ever touched, exactly as in the C array;
- `uintptr_t` addition in address resolution wraps, hence the explicit
  `% 2 ^ 32`;
- the C `while (1)` loop of the walker has no termination guarantee, so
  the loop is embedded with explicit fuel: running out of fuel yields the
  `outOfFuel` outcome, which represents "the C loop has not returned after
  that many iterations".
-/

/-- Gfx display-list command: two 32-bit words, as in `gbi_nsp.h`. -/
structure Gfx where
  w0 : Nat
  w1 : Nat
deriving DecidableEq

/-- Command-stream memory: a total map from Gfx-cell indices to commands. -/
def Mem : Type := Nat → Gfx

/-! GBI command ids from `gbi_nsp.h` (src/unnamed/part_000). -/

def G_SPNOOP : Nat := 0x00
def G_MTX : Nat := 0x01
def G_MOVEMEM : Nat := 0x03
def G_VTX : Nat := 0x04
def G_DL : Nat := 0x06
def G_TRI2 : Nat := 0x09
def G_TRI1 : Nat := 0x0C
def G_ENDDL : Nat := 0xDF
def G_SETOTHERMODE_L : Nat := 0xE2
def G_SETOTHERMODE_H : Nat := 0xE3
def G_TEXRECT : Nat := 0xE4
def G_SETCIMG : Nat := 0xFF
def G_SETZIMG : Nat := 0xFE
def G_SETTIMG : Nat := 0xFD
def G_SETCOMBINE : Nat := 0xFC
def G_SETENVCOLOR : Nat := 0xFB
def G_SETPRIMCOLOR : Nat := 0xFA
def G_SETFOGCOLOR : Nat := 0xF8
def G_SETFILLCOLOR : Nat := 0xF7
def G_FILLRECT : Nat := 0xF6
def G_SETTILE : Nat := 0xF5
def G_LOADTILE : Nat := 0xF4
def G_LOADBLOCK : Nat := 0xF3
def G_SETTILESIZE : Nat := 0xF2
def G_LOADTLUT : Nat := 0xF0
def G_RDPSETOTHERMODE : Nat := 0xEF
def G_SETSCISSOR : Nat := 0xED
def G_RDPFULLSYNC : Nat := 0xE9
def G_RDPTILESYNC : Nat := 0xE8
def G_RDPPIPESYNC : Nat := 0xE7
def G_RDPLOADSYNC : Nat := 0xE6
def G_NOOP : Nat := 0xC0
def G_POPMTX : Nat := 0xD8
def G_GEOMETRYMODE : Nat := 0xD9
def G_TEXTURE : Nat := 0xD7
def G_MW_SEGMENT : Nat := 0x06

/-! GBI command constructors from `gbi_nsp.h`. Each C macro writes one
`Gfx` cell; here the constructor returns that cell. -/

/-- gSPDisplayList macro: `w0 = (G_DL << 24); w1 = dl`. -/
def gSPDisplayList (dl : Nat) : Gfx := ⟨G_DL <<< 24, dl⟩

/-- gSPBranchList macro: defined in the source as a plain alias,
`#define gSPBranchList(pkt, dl) gSPDisplayList(pkt, dl)`. -/
def gSPBranchList (dl : Nat) : Gfx := gSPDisplayList dl

/-- gSPEndDisplayList macro: `w0 = (G_ENDDL << 24); w1 = 0`. -/
def gSPEndDisplayList : Gfx := ⟨G_ENDDL <<< 24, 0⟩

/-- gSPSegment macro from `gbi_nsp.h`:
`_g->w0 = (G_MOVEMEM << 24); _g->w1 = (uint32_t)(uintptr_t)(base);`.
Note that the source macro never uses its `seg` argument and writes no
index or offset byte into `w0`. -/
def gSPSegment (seg base : Nat) : Gfx := ⟨G_MOVEMEM <<< 24, base⟩

/-! Segment table (src/unnamed/part_003, lines 91-103). -/

/-- nsp_set_segment: `nsp_segments[seg & 0xF] = (uintptr_t)addr;`. -/
def nsp_set_segment (segs : Nat → Nat) (seg addr : Nat) : Nat → Nat :=
  Function.update segs (seg &&& 0xF) addr

/-- nsp_segmented_to_virtual from src/unnamed/part_003:
extracts `seg = (addr >> 24) & 0xF` and `offset = addr & 0x00FFFFFF`;
returns the raw offset when the table entry is zero, otherwise
`nsp_segments[seg] + offset` (uintptr_t addition, wrapping mod 2^32). -/
def nsp_segmented_to_virtual (segs : Nat → Nat) (addr : Nat) : Nat :=
  let seg := (addr >>> 24) &&& 0xF
  let offset := addr &&& 0x00FFFFFF
  if segs seg = 0 then offset else (segs seg + offset) % 2 ^ 32

namespace MainNsp

/-- nsp_segmented_to_virtual from src/src/nspire/platform/main_nsp.c:
the recursive-walker variant, which returns
`segment_table[seg] + offset` unconditionally, with no zero special
case. -/
def nsp_segmented_to_virtual (segs : Nat → Nat) (addr : Nat) : Nat :=
  let seg := (addr >>> 24) &&& 0xF
  let offset := addr &&& 0x00FFFFFF
  (segs seg + offset) % 2 ^ 32

end MainNsp

/-! Display-list stack (src/unnamed/part_003, lines 112-127).
The C array `dl_stack` plus `dl_stack_top` is modelled as a list whose
head is the top of the stack. -/

def DL_STACK_SIZE : Nat := 16

/-- dl_push: stores only when `dl_stack_top < DL_STACK_SIZE`; a push at
full depth is silently dropped. -/
def dl_push (dl : Nat) (stack : List Nat) : List Nat :=
  if stack.length < DL_STACK_SIZE then dl :: stack else stack

/-- dl_pop: returns the top cursor and the remaining stack, or `none`
when the stack is empty (the C function returns NULL). -/
def dl_pop : List Nat → Option (Nat × List Nat)
  | [] => none
  | p :: rest => some (p, rest)

/-- Walker state: the current command pointer `dl`, the display-list
stack, and the segment table. -/
structure DLState where
  dl : Nat
  stack : List Nat
  segs : Nat → Nat

/-- Render submission record. The opcode byte and the command words are
taken from the stream; the address operand is resolved through the
segment table. -/
structure Submission where
  opcode : Nat
  w0 : Nat
  resolvedAddr : Nat
deriving DecidableEq

/-- isRenderOp lists exactly the opcodes of the pass-through render arm
of the walker's switch (src/unnamed/part_003, lines 185-210). -/
def isRenderOp (c : Nat) : Bool :=
  c == G_VTX || c == G_TRI1 || c == G_TRI2 || c == G_MTX ||
  c == G_POPMTX || c == G_GEOMETRYMODE || c == G_TEXTURE ||
  c == G_SETCOMBINE || c == G_SETTIMG || c == G_SETTILE ||
  c == G_SETTILESIZE || c == G_LOADBLOCK || c == G_LOADTILE ||
  c == G_LOADTLUT || c == G_SETSCISSOR || c == G_SETENVCOLOR ||
  c == G_SETPRIMCOLOR || c == G_SETFOGCOLOR || c == G_SETFILLCOLOR ||
  c == G_FILLRECT || c == G_SETCIMG || c == G_SETZIMG ||
  c == G_RDPSETOTHERMODE || c == G_SETOTHERMODE_L ||
  c == G_SETOTHERMODE_H || c == G_TEXRECT

/-- Modelled from the spec: the render arm of the walker is a TODO no-op
in the source (the renderer frontend `gfx_run_dl` is declared extern but
not defined under src/). The spec prescribes: "resolve any embedded
address operand via the Segment Table, then submit the decoded,
fully-resolved command to the Renderer Backend". This record is the
submission so produced for one visited render command. -/
def submitRender (segs : Nat → Nat) (w0 w1 : Nat) : Submission :=
  ⟨(w0 >>> 24) &&& 0xFF, w0, nsp_segmented_to_virtual segs w1⟩

/-- Result of one iteration of the walker's `while (1)` loop body. -/
inductive StepRes where
  | done : StepRes
  | next : DLState → StepRes

/-- One iteration of the walker loop body (src/unnamed/part_003,
lines 135-228): read `w0`/`w1`, dispatch on the opcode byte, and either
return (`done`) or continue with the updated state. Besides the next
state, the step reports the render submission (spec-modelled, see
`submitRender`) and the segment write `(index, value)` it performs, if
any. -/
def step (mem : Mem) (s : DLState) : StepRes × List Submission × List (Nat × Nat) :=
  let w0 := (mem s.dl).w0
  let w1 := (mem s.dl).w1
  let cmd := (w0 >>> 24) &&& 0xFF
  if cmd = G_ENDDL then
    match s.stack with
    | parent :: rest => (.next ⟨parent, rest, s.segs⟩, [], [])
    | [] => (.done, [], [])
  else if cmd = G_DL then
    if w1 ≠ 0 then
      let is_branch := (w0 &&& 0x00FF0000) == 0x00010000
      let stack' := if is_branch then s.stack else dl_push (s.dl + 1) s.stack
      (.next ⟨w1, stack', s.segs⟩, [], [])
    else
      (.next ⟨s.dl + 1, s.stack, s.segs⟩, [], [])
  else if cmd = G_MOVEMEM then
    let index := (w0 >>> 8) &&& 0xFF
    let offset := w0 &&& 0xFF
    if index = G_MW_SEGMENT then
      let seg_id := offset / 4
      (.next ⟨s.dl + 1, s.stack, nsp_set_segment s.segs seg_id w1⟩, [],
        [(seg_id &&& 0xF, w1)])
    else
      (.next ⟨s.dl + 1, s.stack, s.segs⟩, [], [])
  else if isRenderOp cmd then
    (.next ⟨s.dl + 1, s.stack, s.segs⟩, [submitRender s.segs w0 w1], [])
  else
    (.next ⟨s.dl + 1, s.stack, s.segs⟩, [], [])

/-- Outcome of running the walker loop for a given amount of fuel:
either the C function returned, or the loop is still running after that
many iterations (the source loop itself has no instruction bound). -/
inductive Outcome where
  | halted : Outcome
  | outOfFuel : DLState → Outcome

/-- Aggregated observations of a walker run. -/
structure RunResult where
  outcome : Outcome
  visited : List Nat
  submits : List Submission
  segWrites : List (Nat × Nat)
  finalSegs : Nat → Nat

/-- run the walker loop for at most `fuel` iterations. -/
def run (mem : Mem) : Nat → DLState → RunResult
  | 0, s => ⟨.outOfFuel s, [], [], [], s.segs⟩
  | fuel + 1, s =>
    match step mem s with
    | (.done, _, _) => ⟨.halted, [s.dl], [], [], s.segs⟩
    | (.next s', sub, wr) =>
      let r := run mem fuel s'
      ⟨r.outcome, s.dl :: r.visited, sub ++ r.submits, wr ++ r.segWrites,
        r.finalSegs⟩

/-- Initial walker state of one top-level invocation: the source sets
`dl_stack_top = 0` on entry, so the stack starts empty. -/
def initState (dl : Nat) (segs : Nat → Nat) : DLState := ⟨dl, [], segs⟩

/-- nsp_process_display_list (src/unnamed/part_003, lines 129-229):
returns immediately on a null pointer, otherwise resets the stack and
runs the walker loop. `fuel` bounds the number of loop iterations the
embedding unrolls; the C loop itself has no such bound. -/
def nsp_process_display_list (mem : Mem) (segs : Nat → Nat) (fuel : Nat)
    (dl : Nat) : RunResult :=
  if dl = 0 then ⟨.halted, [], [], [], segs⟩
  else run mem fuel (initState dl segs)

/-! ### Step characterization lemmas

One lemma per arm of the walker's switch, each with an explicit hypothesis
on the opcode byte of the current command, stated over the components of
the walker state. These let proofs about streams with symbolic contents
(free base addresses, free segment tables) proceed without relying on
definitional reduction of bitwise operations. -/

/-- opcode byte of the command at address `d`. -/
def cmdAt (mem : Mem) (d : Nat) : Nat := ((mem d).w0 >>> 24) &&& 0xFF

theorem step_enddl_pop (mem : Mem) (d p : Nat) (rest : List Nat)
    (sg : Nat → Nat) (h : cmdAt mem d = G_ENDDL) :
    step mem ⟨d, p :: rest, sg⟩ = (.next ⟨p, rest, sg⟩, [], []) := by
  simp only [step, cmdAt] at h ⊢
  rw [h]
  norm_num [G_ENDDL]

theorem step_enddl_empty (mem : Mem) (d : Nat) (sg : Nat → Nat)
    (h : cmdAt mem d = G_ENDDL) :
    step mem ⟨d, [], sg⟩ = (.done, [], []) := by
  simp only [step, cmdAt] at h ⊢
  rw [h]
  norm_num [G_ENDDL]

theorem step_dl_call (mem : Mem) (d : Nat) (st : List Nat) (sg : Nat → Nat)
    (h : cmdAt mem d = G_DL) (hw1 : (mem d).w1 ≠ 0)
    (hbr : (mem d).w0 &&& 0x00FF0000 ≠ 0x00010000) :
    step mem ⟨d, st, sg⟩ = (.next ⟨(mem d).w1, dl_push (d + 1) st, sg⟩, [], []) := by
  have hb : ((mem d).w0 &&& 0x00FF0000 == 0x00010000) = false := by
    simpa using hbr
  simp only [step, cmdAt] at h ⊢
  rw [h, if_neg (show G_DL ≠ G_ENDDL by decide), if_pos (rfl : G_DL = G_DL),
    if_pos hw1, hb]
  simp

theorem step_dl_branch (mem : Mem) (d : Nat) (st : List Nat) (sg : Nat → Nat)
    (h : cmdAt mem d = G_DL) (hw1 : (mem d).w1 ≠ 0)
    (hbr : (mem d).w0 &&& 0x00FF0000 = 0x00010000) :
    step mem ⟨d, st, sg⟩ = (.next ⟨(mem d).w1, st, sg⟩, [], []) := by
  have hb : ((mem d).w0 &&& 0x00FF0000 == 0x00010000) = true := by
    simpa using hbr
  simp only [step, cmdAt] at h ⊢
  rw [h, if_neg (show G_DL ≠ G_ENDDL by decide), if_pos (rfl : G_DL = G_DL),
    if_pos hw1, hb]
  simp

theorem step_dl_null (mem : Mem) (d : Nat) (st : List Nat) (sg : Nat → Nat)
    (h : cmdAt mem d = G_DL) (hw1 : (mem d).w1 = 0) :
    step mem ⟨d, st, sg⟩ = (.next ⟨d + 1, st, sg⟩, [], []) := by
  simp only [step, cmdAt] at h ⊢
  rw [h, if_neg (show G_DL ≠ G_ENDDL by decide), if_pos (rfl : G_DL = G_DL),
    if_neg (by simpa using hw1)]

theorem step_movemem_segment (mem : Mem) (d : Nat) (st : List Nat) (sg : Nat → Nat)
    (h : cmdAt mem d = G_MOVEMEM)
    (hidx : ((mem d).w0 >>> 8) &&& 0xFF = G_MW_SEGMENT) :
    step mem ⟨d, st, sg⟩ = (.next ⟨d + 1, st,
        nsp_set_segment sg (((mem d).w0 &&& 0xFF) / 4) (mem d).w1⟩, [],
      [((((mem d).w0 &&& 0xFF) / 4) &&& 0xF, (mem d).w1)]) := by
  simp only [step, cmdAt] at h ⊢
  rw [h, hidx]
  norm_num [G_ENDDL, G_DL, G_MOVEMEM, G_MW_SEGMENT]

theorem step_movemem_other (mem : Mem) (d : Nat) (st : List Nat) (sg : Nat → Nat)
    (h : cmdAt mem d = G_MOVEMEM)
    (hidx : ((mem d).w0 >>> 8) &&& 0xFF ≠ G_MW_SEGMENT) :
    step mem ⟨d, st, sg⟩ = (.next ⟨d + 1, st, sg⟩, [], []) := by
  simp only [step, cmdAt] at h ⊢
  rw [h, if_neg (show G_MOVEMEM ≠ G_ENDDL by decide),
    if_neg (show G_MOVEMEM ≠ G_DL by decide), if_pos (rfl : G_MOVEMEM = G_MOVEMEM),
    if_neg hidx]

theorem step_render (mem : Mem) (d : Nat) (st : List Nat) (sg : Nat → Nat)
    (h : isRenderOp (cmdAt mem d) = true) :
    step mem ⟨d, st, sg⟩ = (.next ⟨d + 1, st, sg⟩,
      [submitRender sg (mem d).w0 (mem d).w1], []) := by
  have h1 : cmdAt mem d ≠ G_ENDDL := by
    intro hc; rw [hc] at h; exact absurd h (by decide)
  have h2 : cmdAt mem d ≠ G_DL := by
    intro hc; rw [hc] at h; exact absurd h (by decide)
  have h3 : cmdAt mem d ≠ G_MOVEMEM := by
    intro hc; rw [hc] at h; exact absurd h (by decide)
  simp only [step, cmdAt] at h1 h2 h3 h ⊢
  rw [if_neg h1, if_neg h2, if_neg h3, if_pos h]

theorem step_other (mem : Mem) (d : Nat) (st : List Nat) (sg : Nat → Nat)
    (h1 : cmdAt mem d ≠ G_ENDDL) (h2 : cmdAt mem d ≠ G_DL)
    (h3 : cmdAt mem d ≠ G_MOVEMEM) (h4 : isRenderOp (cmdAt mem d) = false) :
    step mem ⟨d, st, sg⟩ = (.next ⟨d + 1, st, sg⟩, [], []) := by
  simp only [step, cmdAt] at h1 h2 h3 h4 ⊢
  rw [if_neg h1, if_neg h2, if_neg h3, if_neg (by simp [h4])]

/-! ### Run unfolding lemmas -/

theorem run_zero (mem : Mem) (s : DLState) :
    run mem 0 s = ⟨.outOfFuel s, [], [], [], s.segs⟩ := rfl

theorem run_succ_done (mem : Mem) (s : DLState) (fuel : Nat)
    (sub : List Submission) (wr : List (Nat × Nat))
    (h : step mem s = (.done, sub, wr)) :
    run mem (fuel + 1) s = ⟨.halted, [s.dl], [], [], s.segs⟩ := by
  simp [run, h]

theorem run_succ_next (mem : Mem) (s s' : DLState) (fuel : Nat)
    (sub : List Submission) (wr : List (Nat × Nat))
    (h : step mem s = (.next s', sub, wr)) :
    run mem (fuel + 1) s =
      ⟨(run mem fuel s').outcome, s.dl :: (run mem fuel s').visited,
        sub ++ (run mem fuel s').submits, wr ++ (run mem fuel s').segWrites,
        (run mem fuel s').finalSegs⟩ := by
  simp [run, h]

/-! ### Generic invariants of one step -/

/-- the stack stays within capacity across any single continuing step. -/
theorem step_next_stack_le (mem : Mem) (d : Nat) (st : List Nat) (sg : Nat → Nat)
    (s' : DLState) (sub : List Submission) (wr : List (Nat × Nat))
    (h : step mem ⟨d, st, sg⟩ = (.next s', sub, wr))
    (hb : st.length ≤ DL_STACK_SIZE) :
    s'.stack.length ≤ DL_STACK_SIZE := by
  have hpush : ∀ (a : Nat) (l : List Nat), l.length ≤ DL_STACK_SIZE →
      (dl_push a l).length ≤ DL_STACK_SIZE := by
    intro a l hl
    by_cases hlt : l.length < DL_STACK_SIZE
    · simp only [dl_push, if_pos hlt, List.length_cons]
      omega
    · simp only [dl_push, if_neg hlt]
      exact hl
  by_cases h1 : cmdAt mem d = G_ENDDL
  · rcases st with _ | ⟨p, rest⟩
    · rw [step_enddl_empty mem d sg h1] at h
      simp at h
    · rw [step_enddl_pop mem d p rest sg h1] at h
      simp only [Prod.mk.injEq, StepRes.next.injEq] at h
      rw [← h.1]
      simp only [List.length_cons] at hb
      simp only [List.length]
      omega
  · by_cases h2 : cmdAt mem d = G_DL
    · by_cases hw1 : (mem d).w1 = 0
      · rw [step_dl_null mem d st sg h2 hw1] at h
        simp only [Prod.mk.injEq, StepRes.next.injEq] at h
        rw [← h.1]
        exact hb
      · by_cases hbr : (mem d).w0 &&& 0x00FF0000 = 0x00010000
        · rw [step_dl_branch mem d st sg h2 hw1 hbr] at h
          simp only [Prod.mk.injEq, StepRes.next.injEq] at h
          rw [← h.1]
          exact hb
        · rw [step_dl_call mem d st sg h2 hw1 hbr] at h
          simp only [Prod.mk.injEq, StepRes.next.injEq] at h
          rw [← h.1]
          exact hpush _ _ hb
    · by_cases h3 : cmdAt mem d = G_MOVEMEM
      · by_cases hidx : ((mem d).w0 >>> 8) &&& 0xFF = G_MW_SEGMENT
        · rw [step_movemem_segment mem d st sg h3 hidx] at h
          simp only [Prod.mk.injEq, StepRes.next.injEq] at h
          rw [← h.1]
          exact hb
        · rw [step_movemem_other mem d st sg h3 hidx] at h
          simp only [Prod.mk.injEq, StepRes.next.injEq] at h
          rw [← h.1]
          exact hb
      · by_cases h4 : isRenderOp (cmdAt mem d) = true
        · rw [step_render mem d st sg h4] at h
          simp only [Prod.mk.injEq, StepRes.next.injEq] at h
          rw [← h.1]
          exact hb
        · rw [step_other mem d st sg h1 h2 h3 (by simpa using h4)] at h
          simp only [Prod.mk.injEq, StepRes.next.injEq] at h
          rw [← h.1]
          exact hb

/-- a continuing step changes no segment-table entry it does not record in
its write list. -/
theorem step_segs_of_not_written (mem : Mem) (d : Nat) (st : List Nat)
    (sg : Nat → Nat) (s' : DLState) (sub : List Submission) (wr : List (Nat × Nat))
    (h : step mem ⟨d, st, sg⟩ = (.next s', sub, wr)) (i : Nat)
    (hi : i ∉ wr.map Prod.fst) : s'.segs i = sg i := by
  by_cases h1 : cmdAt mem d = G_ENDDL
  · rcases st with _ | ⟨p, rest⟩
    · rw [step_enddl_empty mem d sg h1] at h
      simp at h
    · rw [step_enddl_pop mem d p rest sg h1] at h
      simp only [Prod.mk.injEq, StepRes.next.injEq] at h
      rw [← h.1]
  · by_cases h2 : cmdAt mem d = G_DL
    · by_cases hw1 : (mem d).w1 = 0
      · rw [step_dl_null mem d st sg h2 hw1] at h
        simp only [Prod.mk.injEq, StepRes.next.injEq] at h
        rw [← h.1]
      · by_cases hbr : (mem d).w0 &&& 0x00FF0000 = 0x00010000
        · rw [step_dl_branch mem d st sg h2 hw1 hbr] at h
          simp only [Prod.mk.injEq, StepRes.next.injEq] at h
          rw [← h.1]
        · rw [step_dl_call mem d st sg h2 hw1 hbr] at h
          simp only [Prod.mk.injEq, StepRes.next.injEq] at h
          rw [← h.1]
    · by_cases h3 : cmdAt mem d = G_MOVEMEM
      · by_cases hidx : ((mem d).w0 >>> 8) &&& 0xFF = G_MW_SEGMENT
        · rw [step_movemem_segment mem d st sg h3 hidx] at h
          simp only [Prod.mk.injEq, StepRes.next.injEq] at h
          rw [← h.2.2] at hi
          simp only [List.map_cons, List.map_nil, List.mem_singleton] at hi
          rw [← h.1]
          simp only [nsp_set_segment]
          exact Function.update_noteq hi _ _
        · rw [step_movemem_other mem d st sg h3 hidx] at h
          simp only [Prod.mk.injEq, StepRes.next.injEq] at h
          rw [← h.1]
      · by_cases h4 : isRenderOp (cmdAt mem d) = true
        · rw [step_render mem d st sg h4] at h
          simp only [Prod.mk.injEq, StepRes.next.injEq] at h
          rw [← h.1]
        · rw [step_other mem d st sg h1 h2 h3 (by simpa using h4)] at h
          simp only [Prod.mk.injEq, StepRes.next.injEq] at h
          rw [← h.1]

/-! ### Iterated state and run-level invariants -/

/-- state of the walker after `n` loop iterations (frozen once the walk
has returned). -/
def stepN (mem : Mem) : Nat → DLState → DLState
  | 0, s => s
  | n + 1, s =>
    match step mem s with
    | (.done, _, _) => s
    | (.next s', _, _) => stepN mem n s'

/-- the stack stays within capacity along the whole walk. -/
theorem stepN_stack_le (mem : Mem) : ∀ (n : Nat) (s : DLState),
    s.stack.length ≤ DL_STACK_SIZE →
    (stepN mem n s).stack.length ≤ DL_STACK_SIZE := by
  intro n
  induction n with
  | zero => intro s hs; simpa [stepN] using hs
  | succ k ih =>
    intro s hs
    obtain ⟨d, st, sg⟩ := s
    rcases hstep : step mem ⟨d, st, sg⟩ with ⟨res, sub, wr⟩
    rcases res with _ | s'
    · simpa [stepN, hstep] using hs
    · simp only [stepN, hstep]
      exact ih s' (step_next_stack_le mem d st sg s' sub wr hstep hs)

/-- a run changes no segment-table entry that its write list does not
mention. -/
theorem run_finalSegs_of_not_written (mem : Mem) : ∀ (fuel : Nat) (s : DLState) (i : Nat),
    i ∉ (run mem fuel s).segWrites.map Prod.fst →
    (run mem fuel s).finalSegs i = s.segs i := by
  intro fuel
  induction fuel with
  | zero => intro s i _; rfl
  | succ k ih =>
    intro s i hi
    obtain ⟨d, st, sg⟩ := s
    rcases hstep : step mem ⟨d, st, sg⟩ with ⟨res, sub, wr⟩
    rcases res with _ | s'
    · rw [run_succ_done mem ⟨d, st, sg⟩ k sub wr hstep]
    · rw [run_succ_next mem ⟨d, st, sg⟩ s' k sub wr hstep] at hi ⊢
      simp only [List.map_append, List.mem_append] at hi
      push_neg at hi
      rw [ih s' i hi.2]
      exact step_segs_of_not_written mem d st sg s' sub wr hstep i hi.1

/-! ## Claim theorems -/

/-- C10: the two address-resolution implementations — part_003's, which
special-cases an unset (zero) table entry by returning the raw offset,
and main_nsp.c's, which unconditionally returns `table[segment] + offset`
— compute the same address for every segment-table state and every
encoded address, because the unset sentinel is zero and adding a zero
base is the identity. -/
theorem C10_resolution_variants_agree :
    ∀ (segs : Nat → Nat) (addr : Nat),
      nsp_segmented_to_virtual segs addr = MainNsp.nsp_segmented_to_virtual segs addr := by
  intro segs addr
  simp only [nsp_segmented_to_virtual, MainNsp.nsp_segmented_to_virtual]
  by_cases h : segs ((addr >>> 24) &&& 0xF) = 0
  · rw [if_pos h, h, Nat.zero_add]
    exact (Nat.mod_eq_of_lt (lt_of_le_of_lt Nat.and_le_right (by norm_num))).symm
  · rw [if_neg h]

/-- C7: address resolution extracts the 4-bit segment id and 24-bit
offset from the encoded address and returns `table[id] + offset` when the
entry is set, else the raw offset unchanged; after `set(1, 0x1000)`,
resolving the encoded address `(segment=1, offset=0x20)` returns
`0x1020`, and with segment 1 unset the same encoded address resolves to
`0x20`. Resolution is a total function and never fails. -/
theorem C7_segmented_resolution :
    (∀ (segs : Nat → Nat) (addr : Nat),
      nsp_segmented_to_virtual segs addr =
        if segs (addr / 2 ^ 24 % 16) = 0 then addr % 2 ^ 24
        else (segs (addr / 2 ^ 24 % 16) + addr % 2 ^ 24) % 2 ^ 32) ∧
    (∀ segs : Nat → Nat,
      nsp_segmented_to_virtual (nsp_set_segment segs 1 0x1000) 0x01000020 = 0x1020) ∧
    (∀ segs : Nat → Nat, segs 1 = 0 →
      nsp_segmented_to_virtual segs 0x01000020 = 0x20) := by
  have hmask4 : ∀ x : Nat, x &&& 0xF = x % 16 := by
    intro x
    rw [show (0xF : Nat) = 2 ^ 4 - 1 by norm_num, show (16 : Nat) = 2 ^ 4 by norm_num]
    exact Nat.and_pow_two_sub_one_eq_mod x 4
  have hmask24 : ∀ x : Nat, x &&& 0x00FFFFFF = x % 2 ^ 24 := by
    intro x
    rw [show (0x00FFFFFF : Nat) = 2 ^ 24 - 1 by norm_num]
    exact Nat.and_pow_two_sub_one_eq_mod x 24
  have hshift : ∀ x : Nat, x >>> 24 = x / 2 ^ 24 := fun x =>
    Nat.shiftRight_eq_div_pow x 24
  refine ⟨?_, ?_, ?_⟩
  · intro segs addr
    simp only [nsp_segmented_to_virtual, hshift, hmask4, hmask24]
  · intro segs
    simp only [nsp_segmented_to_virtual, nsp_set_segment]
    have hupd : Function.update segs ((1 : Nat) &&& 0xF) 0x1000
        (((0x01000020 : Nat) >>> 24) &&& 0xF) = 0x1000 := by
      rw [show (((0x01000020 : Nat) >>> 24) &&& 0xF) = (1 : Nat) &&& 0xF by decide]
      exact Function.update_same _ _ _
    rw [hupd, show (0x01000020 : Nat) &&& 0x00FFFFFF = 0x20 by decide]
    norm_num
  · intro segs hz
    simp only [nsp_segmented_to_virtual]
    rw [show ((0x01000020 : Nat) >>> 24) &&& 0xF = 1 by decide, hz,
      show (0x01000020 : Nat) &&& 0x00FFFFFF = 0x20 by decide, if_pos rfl]

/-- C7 witness: the theorem applied at the all-zero table. -/
theorem C7_segmented_resolution_witness :
    nsp_segmented_to_virtual (nsp_set_segment (fun _ => 0) 1 0x1000) 0x01000020 = 0x1020 ∧
    nsp_segmented_to_virtual (fun _ => 0) 0x01000020 = 0x20 :=
  ⟨C7_segmented_resolution.2.1 (fun _ => 0),
   C7_segmented_resolution.2.2 (fun _ => 0) rfl⟩

/-- two mutually branching one-command streams: the command at 100 is a
G_DL with the branch marker (bits 16-23 = 0x01) targeting 200, and the
command at 200 branches back to 100. -/
def cycleMem : Mem := fun n =>
  if n = 100 then ⟨(G_DL <<< 24) + 0x00010000, 200⟩
  else if n = 200 then ⟨(G_DL <<< 24) + 0x00010000, 100⟩
  else ⟨0, 0⟩

/-- whether an outcome is the walker's return (as opposed to the embedded
loop still running when the fuel ran out). -/
def Outcome.isHalted : Outcome → Bool
  | .halted => true
  | .outOfFuel _ => false

/-- C1 (evaluation of the code at the failing input): the source walker
enforces no instruction bound — its loop is a bare `while (1)` — so on
the mutual-branch cycle `A -> B -> A` the walk never returns, for every
segment-table state and every number of loop iterations granted. -/
theorem C1_walker_never_halts_on_cycle :
    ∀ (segs : Nat → Nat) (fuel : Nat),
      (nsp_process_display_list cycleMem segs fuel 100).outcome.isHalted = false := by
  intro segs fuel
  have hA : ∀ (st : List Nat) (sg : Nat → Nat),
      step cycleMem ⟨100, st, sg⟩ = (.next ⟨200, st, sg⟩, [], []) := by
    intro st sg
    rw [step_dl_branch cycleMem 100 st sg (by decide) (by decide) (by decide),
      show (cycleMem 100).w1 = 200 by decide]
  have hB : ∀ (st : List Nat) (sg : Nat → Nat),
      step cycleMem ⟨200, st, sg⟩ = (.next ⟨100, st, sg⟩, [], []) := by
    intro st sg
    rw [step_dl_branch cycleMem 200 st sg (by decide) (by decide) (by decide),
      show (cycleMem 200).w1 = 100 by decide]
  have key : ∀ (f : Nat) (st : List Nat) (sg : Nat → Nat),
      (run cycleMem f ⟨100, st, sg⟩).outcome.isHalted = false ∧
      (run cycleMem f ⟨200, st, sg⟩).outcome.isHalted = false := by
    intro f
    induction f with
    | zero =>
      intro st sg
      exact ⟨rfl, rfl⟩
    | succ k ih =>
      intro st sg
      constructor
      · rw [run_succ_next cycleMem ⟨100, st, sg⟩ ⟨200, st, sg⟩ k [] [] (hA st sg)]
        exact (ih st sg).2
      · rw [run_succ_next cycleMem ⟨200, st, sg⟩ ⟨100, st, sg⟩ k [] [] (hB st sg)]
        exact (ih st sg).1
  simp only [nsp_process_display_list, if_neg (show ¬(100 : Nat) = 0 by norm_num)]
  exact (key fuel [] segs).1

/-- one gSPSegment-built command followed by END. -/
def segCmdMem (seg base : Nat) : Mem := fun n =>
  if n = 100 then gSPSegment seg base
  else if n = 101 then gSPEndDisplayList
  else ⟨0, 0⟩

/-- C3 (evaluation of the code at the failing input): a command built by
the gSPSegment constructor carries index byte 0, not G_MW_SEGMENT, so the
walker's G_MOVEMEM arm never forwards it to `nsp_set_segment`: processing
`[gSPSegment(seg, base), END]` performs no segment write and returns the
table exactly as it was, for every table and all arguments. -/
theorem C3_gSPSegment_built_command_is_ignored :
    ∀ (segs : Nat → Nat) (seg base : Nat),
      (nsp_process_display_list (segCmdMem seg base) segs 2 100).finalSegs = segs ∧
      (nsp_process_display_list (segCmdMem seg base) segs 2 100).segWrites = [] ∧
      ((segCmdMem seg base 100).w0 >>> 8) &&& 0xFF ≠ G_MW_SEGMENT := by
  intro segs seg base
  have hw0 : (segCmdMem seg base 100).w0 = 0x03000000 := rfl
  have hcmd : cmdAt (segCmdMem seg base) 100 = G_MOVEMEM := by
    simp only [cmdAt, hw0]
    decide
  have hidx : ((segCmdMem seg base 100).w0 >>> 8) &&& 0xFF ≠ G_MW_SEGMENT := by
    rw [hw0]
    decide
  have hs1 := step_movemem_other (segCmdMem seg base) 100 [] segs hcmd hidx
  have hcmd2 : cmdAt (segCmdMem seg base) 101 = G_ENDDL := by
    have hw0b : (segCmdMem seg base 101).w0 = 0xDF000000 := rfl
    simp only [cmdAt, hw0b]
    decide
  have hs2 := step_enddl_empty (segCmdMem seg base) 101 segs hcmd2
  have hpr : nsp_process_display_list (segCmdMem seg base) segs 2 100 =
      run (segCmdMem seg base) 2 ⟨100, [], segs⟩ := by
    simp only [nsp_process_display_list, initState]
    rw [if_neg (show ¬(100 : Nat) = 0 by norm_num)]
  refine ⟨?_, ?_, hidx⟩
  · rw [hpr, show (2 : Nat) = 1 + 1 from rfl,
      run_succ_next _ _ _ 1 [] [] hs1, run_succ_done _ _ 0 [] [] hs2]
  · rw [hpr, show (2 : Nat) = 1 + 1 from rfl,
      run_succ_next _ _ _ 1 [] [] hs1, run_succ_done _ _ 0 [] [] hs2]
    rfl

/-- render commands used in the concrete test streams. -/
def renderX : Gfx := ⟨G_VTX <<< 24, 0x40⟩

def renderY : Gfx := ⟨G_TRI1 <<< 24, 0x50⟩

/-- parent list [gSPBranchList(300), RENDER(y), END] at 100..102 and
child [RENDER(x), END] at 300..301. -/
def branchListMem : Mem := fun n =>
  if n = 100 then gSPBranchList 300
  else if n = 101 then renderY
  else if n = 102 then gSPEndDisplayList
  else if n = 300 then renderX
  else if n = 301 then gSPEndDisplayList
  else ⟨0, 0⟩

/-- C5 (evaluation of the code at the failing input): gSPBranchList is a
plain alias of gSPDisplayList, so the command it builds never carries the
branch marker the walker tests for; the walker therefore executes it with
CALL semantics and, after the child's END, resumes at the command
following it in the origin stream (address 101 is visited). -/
theorem C5_gSPBranchList_has_call_semantics :
    gSPBranchList 300 = gSPDisplayList 300 ∧
    (gSPBranchList 300).w0 &&& 0x00FF0000 ≠ 0x00010000 ∧
    (nsp_process_display_list branchListMem (fun _ => 0) 10 100).visited =
      [100, 300, 301, 101, 102] ∧
    (nsp_process_display_list branchListMem (fun _ => 0) 10 100).outcome = Outcome.halted :=
  ⟨rfl, by decide, by decide, rfl⟩

/-- stream [RENDER(a), RENDER(b), END] at 100..102. -/
def twoRenderMem : Mem := fun n =>
  if n = 100 then ⟨(G_VTX <<< 24) + 0x123, 0x40⟩
  else if n = 101 then ⟨(G_TRI1 <<< 24) + 0x456, 0x50⟩
  else if n = 102 then gSPEndDisplayList
  else ⟨0, 0⟩

/-- C2: processing [RENDER(a), RENDER(b), END] with an empty Call Stack
submits exactly two commands to the Renderer Backend, in order a then b,
and then the walk halts; in general, every step whose current opcode is a
render opcode submits exactly that command, decoded and address-resolved,
and advances the cursor by one. (Submission itself is modelled from the
spec, see `submitRender`.) -/
theorem C2_render_commands_submitted_in_order :
    (∀ (mem : Mem) (d : Nat) (st : List Nat) (sg : Nat → Nat),
      isRenderOp (cmdAt mem d) = true →
      step mem ⟨d, st, sg⟩ = (.next ⟨d + 1, st, sg⟩,
        [submitRender sg (mem d).w0 (mem d).w1], [])) ∧
    (nsp_process_display_list twoRenderMem (fun _ => 0) 10 100).submits =
      [⟨G_VTX, (G_VTX <<< 24) + 0x123, 0x40⟩, ⟨G_TRI1, (G_TRI1 <<< 24) + 0x456, 0x50⟩] ∧
    (nsp_process_display_list twoRenderMem (fun _ => 0) 10 100).outcome = Outcome.halted ∧
    (nsp_process_display_list twoRenderMem (fun _ => 0) 10 100).visited = [100, 101, 102] :=
  ⟨step_render, by decide, rfl, by decide⟩

/-- C2 witness: the render-step clause applied to the first command of
the concrete stream. -/
theorem C2_render_commands_submitted_in_order_witness :
    step twoRenderMem ⟨100, [], fun _ => 0⟩ =
      (.next ⟨101, [], fun _ => 0⟩,
        [submitRender (fun _ => 0) (twoRenderMem 100).w0 (twoRenderMem 100).w1], []) :=
  C2_render_commands_submitted_in_order.1 twoRenderMem 100 [] (fun _ => 0) (by decide)

/-- segment table with entry 1 set, for the C4 counterexample. -/
def segsOne : Nat → Nat := fun i => if i = 1 then 0x8000 else 0

/-- stream whose first command is gSPDisplayList(0x01000020), i.e. a CALL
whose target word carries segment id 1 and offset 0x20. -/
def callSegMem : Mem := fun n =>
  if n = 100 then gSPDisplayList 0x01000020
  else if n = 101 then gSPEndDisplayList
  else ⟨0, 0⟩

/-- C4 counterexample: with segment 1 mapped to 0x8000, processing the
CALL sets the cursor to the raw target word 0x01000020, while resolving
the target through the segment table gives 0x8020 — the walker applies no
segment resolution to display-list targets, so "sets the cursor to the
resolved target" fails at this input. -/
theorem C4_raw_target_counterexample :
    step callSegMem ⟨100, [], segsOne⟩ =
      (.next ⟨0x01000020, [101], segsOne⟩, [], []) ∧
    nsp_segmented_to_virtual segsOne 0x01000020 = 0x8020 ∧
    (0x01000020 : Nat) ≠ (0x8020 : Nat) := by
  refine ⟨?_, by decide, by decide⟩
  rw [step_dl_call callSegMem 100 [] segsOne (by decide) (by decide) (by decide),
    show (callSegMem 100).w1 = 0x01000020 by decide]
  rfl

/-- parent [CALL(300), RENDER(y), END] at 100..102; child [RENDER(x), END]
at 300..301. -/
def callMem : Mem := fun n =>
  if n = 100 then gSPDisplayList 300
  else if n = 101 then renderY
  else if n = 102 then gSPEndDisplayList
  else if n = 300 then renderX
  else if n = 301 then gSPEndDisplayList
  else ⟨0, 0⟩

/-- C4 amended: processing a CALL(target) pushes the cursor one command
past the CALL onto the Call Stack and sets the cursor to the raw target
word (the walker applies no segment resolution to display-list targets);
when the called child reaches END, control resumes at the parent's
instruction immediately following the CALL — for a parent
[CALL(child), RENDER(y), END] with child [RENDER(x), END], the processing
order is x then y. -/
theorem C4_call_pushes_return_and_resumes :
    (∀ (mem : Mem) (d : Nat) (st : List Nat) (sg : Nat → Nat),
      cmdAt mem d = G_DL → (mem d).w1 ≠ 0 →
      (mem d).w0 &&& 0x00FF0000 ≠ 0x00010000 →
      step mem ⟨d, st, sg⟩ =
        (.next ⟨(mem d).w1, dl_push (d + 1) st, sg⟩, [], [])) ∧
    (nsp_process_display_list callMem (fun _ => 0) 10 100).visited =
      [100, 300, 301, 101, 102] ∧
    (nsp_process_display_list callMem (fun _ => 0) 10 100).submits =
      [submitRender (fun _ => 0) renderX.w0 renderX.w1,
        submitRender (fun _ => 0) renderY.w0 renderY.w1] ∧
    (nsp_process_display_list callMem (fun _ => 0) 10 100).outcome = Outcome.halted :=
  ⟨step_dl_call, by decide, by decide, rfl⟩

/-- C4 witness: the CALL step clause applied to the first command of the
concrete stream. -/
theorem C4_call_pushes_return_and_resumes_witness :
    step callMem ⟨100, [], fun _ => 0⟩ =
      (.next ⟨(callMem 100).w1, dl_push 101 [], fun _ => 0⟩, [], []) :=
  C4_call_pushes_return_and_resumes.1 callMem 100 [] (fun _ => 0)
    (by decide) (by decide) (by decide)

/-- parent [BRANCH(300), RENDER(y), END] at 100..102, the branch marker
being the value 0x01 in bits 16-23 of w0, exactly as the walker tests;
child [RENDER(x), END] at 300..301. -/
def branchMem : Mem := fun n =>
  if n = 100 then ⟨(G_DL <<< 24) + 0x00010000, 300⟩
  else if n = 101 then renderY
  else if n = 102 then gSPEndDisplayList
  else if n = 300 then renderX
  else if n = 301 then gSPEndDisplayList
  else ⟨0, 0⟩

/-- C6: processing a BRANCH(target) pushes nothing onto the Call Stack
(the stack is passed through unchanged), and the branching stream is
never resumed: with an empty stack before the branch, the walk visits the
branch, then the child's commands, and halts exactly at the child's END —
the parent's following command (address 101) is never visited. -/
theorem C6_branch_never_returns :
    (∀ (mem : Mem) (d : Nat) (st : List Nat) (sg : Nat → Nat),
      cmdAt mem d = G_DL → (mem d).w1 ≠ 0 →
      (mem d).w0 &&& 0x00FF0000 = 0x00010000 →
      step mem ⟨d, st, sg⟩ = (.next ⟨(mem d).w1, st, sg⟩, [], [])) ∧
    (nsp_process_display_list branchMem (fun _ => 0) 10 100).visited = [100, 300, 301] ∧
    (nsp_process_display_list branchMem (fun _ => 0) 10 100).outcome = Outcome.halted :=
  ⟨step_dl_branch, by decide, rfl⟩

/-- C6 witness: the BRANCH step clause applied to the first command of
the concrete stream. -/
theorem C6_branch_never_returns_witness :
    step branchMem ⟨100, [], fun _ => 0⟩ =
      (.next ⟨(branchMem 100).w1, [], fun _ => 0⟩, [], []) :=
  C6_branch_never_returns.1 branchMem 100 [] (fun _ => 0)
    (by decide) (by decide) (by decide)

/-- C8: the Call Stack starts empty on every top-level invocation, its
depth never exceeds the fixed capacity 16 at any point of the walk, and a
push attempted at full depth leaves the stack unchanged (a defined
overflow condition, never an out-of-bounds write). -/
theorem C8_stack_bounded :
    (∀ (d : Nat) (sg : Nat → Nat), (initState d sg).stack = []) ∧
    (∀ (mem : Mem) (n d : Nat) (sg : Nat → Nat),
      (stepN mem n (initState d sg)).stack.length ≤ DL_STACK_SIZE) ∧
    (∀ (a : Nat) (st : List Nat), ¬ st.length < DL_STACK_SIZE → dl_push a st = st) :=
  ⟨fun _ _ => rfl,
   fun mem n d sg => stepN_stack_le mem n (initState d sg) (by simp [initState]),
   fun a st h => by simp only [dl_push, if_neg h]⟩

/-- C8 witness: the bound after five steps of a concrete walk, and a push
onto a full 16-entry stack returning it unchanged. -/
theorem C8_stack_bounded_witness :
    (stepN (fun _ => ⟨0, 0⟩) 5 (initState 100 (fun _ => 0))).stack.length ≤ DL_STACK_SIZE ∧
    dl_push 7 [1, 2, 3, 4, 5, 6, 7, 8, 9, 10, 11, 12, 13, 14, 15, 16] =
      [1, 2, 3, 4, 5, 6, 7, 8, 9, 10, 11, 12, 13, 14, 15, 16] :=
  ⟨C8_stack_bounded.2.1 (fun _ => ⟨0, 0⟩) 5 100 (fun _ => 0),
   C8_stack_bounded.2.2 7 _ (by decide)⟩

/-- C9: process never auto-clears the Segment Table: every table entry
whose index is not among the segment writes performed during an
invocation holds the same value when the walk ends as when it was
entered, so segment assignments persist across frames until explicitly
overwritten. -/
theorem C9_segment_table_persists :
    ∀ (mem : Mem) (segs : Nat → Nat) (fuel dl i : Nat),
      i ∉ (nsp_process_display_list mem segs fuel dl).segWrites.map Prod.fst →
      (nsp_process_display_list mem segs fuel dl).finalSegs i = segs i := by
  intro mem segs fuel dl i hi
  by_cases hdl : dl = 0
  · simp only [nsp_process_display_list, if_pos hdl]
  · simp only [nsp_process_display_list, if_neg hdl] at hi ⊢
    exact run_finalSegs_of_not_written mem fuel (initState dl segs) i hi

/-- properly encoded SEGMENT-SET(2, 0x500) then END: index byte 0x06
(G_MW_SEGMENT) and offset byte 0x08 in w0. -/
def segSetMem : Mem := fun n =>
  if n = 100 then ⟨(G_MOVEMEM <<< 24) + 0x0608, 0x500⟩
  else if n = 101 then gSPEndDisplayList
  else ⟨0, 0⟩

/-- C9 witness: a run that writes segment 2 leaves entry 1 untouched. -/
theorem C9_segment_table_persists_witness :
    (nsp_process_display_list segSetMem (fun _ => 0) 10 100).finalSegs 1 = 0 :=
  C9_segment_table_persists segSetMem (fun _ => 0) 10 100 1 (by decide)
